import Mathlib

/-!
Shallow embedding of the Danish verbs quiz application
(`src/verbs/src/main.rs`) and proofs about its quiz state machine.

The embedding covers the quiz engine: the `DanishVerbsApp` state, the
constructor `new`, the operations `next_verb` and `check_answer`, and the
loader `load_verbs`.  Presentation-only fields of the Rust struct
(`fonts_loaded`, `heading_font`, `body_font`, the three colors) and the
rendering code are outside the modelled state: they never feed back into
the quiz logic.

Nondeterminism and effects are made explicit:
* the RNG draws of `next_verb` (`random()` and `rng.random_range(0..=2)`)
  become parameters `coin : Bool` and `form : Nat`;
* the shuffle of `new` (`rand`'s in-place Fisher-Yates) takes the RNG
  outputs as a function `picks : Nat → Nat`;
* `load_verbs`' file read and serde parse become `Except` parameters;
* Rust panics (`% 0`, out-of-bounds index) become `Option.none`.
-/

/-- One verb record, mirroring the Rust `struct Verb` (five string fields). -/
structure Verb where
  infinitive : String
  present : String
  past : String
  past_participle : String
  english : String
  deriving DecidableEq, Repr

/-- Mirrors the Rust `enum PracticeMode`. -/
inductive PracticeMode where
  | Translation
  | Conjugation
  deriving DecidableEq, Repr

/-- Mirrors the Rust `enum ConjugationForm`. -/
inductive ConjugationForm where
  | Present
  | Past
  | PastParticiple
  deriving DecidableEq, Repr

/-- The quiz-engine part of the Rust `struct DanishVerbsApp`.  The
presentation-only fields (`fonts_loaded`, `heading_font`, `body_font`,
`accent_color`, `background_color`, `text_color`) are omitted: they are
never read or written by the quiz logic. -/
structure DanishVerbsApp where
  verbs : List Verb
  current_verb_index : Nat
  practice_mode : PracticeMode
  conjugation_form : ConjugationForm
  user_answer : String
  result_message : String
  show_result : Bool
  deriving DecidableEq, Repr

/-- Models Rust `char::is_whitespace` (the Unicode `White_Space` property),
which `str::trim` uses to strip characters at both ends. -/
def rustIsWhitespace (c : Char) : Bool :=
  let n := c.toNat
  (0x09 ≤ n && n ≤ 0x0D) || n == 0x20 || n == 0x85 || n == 0xA0 ||
  n == 0x1680 || (0x2000 ≤ n && n ≤ 0x200A) || n == 0x2028 || n == 0x2029 ||
  n == 0x202F || n == 0x205F || n == 0x3000

/-- Models Rust `str::trim`: drop Unicode whitespace from both ends. -/
def rustTrim (s : String) : String :=
  ⟨((s.toList.dropWhile rustIsWhitespace).reverse.dropWhile rustIsWhitespace).reverse⟩

/-- Models Rust `char::to_lowercase` restricted to Basic Latin and the
Latin-1 supplement, the repertoire of this application's dataset (Danish
verbs and English glosses, including `Æ Ø Å`): `A`-`Z` and the Latin-1
uppercase letters `À`-`Þ` (excluding `×`) map down by 32, everything else
is returned unchanged.  On this repertoire Rust's mapping is
one-character-to-one-character. -/
def rustCharToLowercase (c : Char) : Char :=
  let n := c.toNat
  if 0x41 ≤ n && n ≤ 0x5A then Char.ofNat (n + 32)
  else if 0xC0 ≤ n && n ≤ 0xDE && n != 0xD7 then Char.ofNat (n + 32)
  else c

/-- Models Rust `str::to_lowercase` on the repertoire of
`rustCharToLowercase`. -/
def rustToLowercase (s : String) : String :=
  ⟨s.toList.map rustCharToLowercase⟩

/-- The normalization `check_answer` applies to both strings before
comparing: `.trim().to_lowercase()` (line 122 of `main.rs`). -/
def rustNormalize (s : String) : String :=
  rustToLowercase (rustTrim s)

/-- The success message of `check_answer` (line 123).  The source file
literally contains the four characters U+00F0 U+0178 U+017D U+2030 after
`"Correct! "` (a mis-decoded party-popper emoji), reproduced here
byte-for-byte. -/
def correct_message : String :=
  "Correct! ðŸŽ‰"

/-- The failure message of `check_answer` (line 125):
`format!("Incorrect. The correct answer is: {}", correct_answer)`. -/
def incorrect_message (correct_answer : String) : String :=
  "Incorrect. The correct answer is: " ++ correct_answer

/-- The expected answer selected by `check_answer` (lines 113-120): the
`english` field in `Translation` mode, otherwise the field named by the
conjugation form. -/
def expected_answer (v : Verb) (mode : PracticeMode) (form : ConjugationForm) : String :=
  match mode with
  | PracticeMode.Translation => v.english
  | PracticeMode.Conjugation =>
    match form with
    | ConjugationForm.Present => v.present
    | ConjugationForm.Past => v.past
    | ConjugationForm.PastParticiple => v.past_participle

/-- Models `Vec::swap` as used by the shuffle: exchange the elements at
positions `i` and `j` (identity when either index is out of bounds; the
shuffle only ever calls it in bounds). -/
def listSwap {α : Type} (l : List α) (i j : Nat) : List α :=
  match l[i]?, l[j]? with
  | some a, some b => (l.set i b).set j a
  | _, _ => l

/-- Models `rand::seq::SliceRandom::shuffle` (in-place Fisher-Yates):
for `i` from `len - 1` down to `1`, swap position `i` with a random
position in `0..=i`.  The RNG draw for step `i` is modelled as
`picks i % (i + 1)`, reflecting `random_range(0..=i)`'s guarantee that
the draw lies in `[0, i]`. -/
def fisherYatesAux {α : Type} (picks : Nat → Nat) : List α → Nat → List α
  | l, 0 => l
  | l, i + 1 => fisherYatesAux picks (listSwap l (i + 1) (picks (i + 1) % (i + 2))) i

/-- The shuffle applied by `DanishVerbsApp::new` to the loaded verb list. -/
def fisherYates {α : Type} (l : List α) (picks : Nat → Nat) : List α :=
  fisherYatesAux picks l (l.length - 1)

/-- Models `DanishVerbsApp::new` (lines 47-67): shuffle the loaded verbs,
start at index 0 in `Translation` mode with `Present` form, empty answer
buffer, empty result message, result hidden.  The loaded list and the
shuffle's RNG draws are parameters. -/
def DanishVerbsApp.new (loaded : List Verb) (picks : Nat → Nat) : DanishVerbsApp :=
  { verbs := fisherYates loaded picks
    current_verb_index := 0
    practice_mode := PracticeMode.Translation
    conjugation_form := ConjugationForm.Present
    user_answer := ""
    result_message := ""
    show_result := false }

/-- Models `DanishVerbsApp::next_verb` (lines 90-109).  `coin` is the
`random()` draw (`true` selects `Translation`), `form` the
`random_range(0..=2)` draw.  When `verbs` is empty the Rust
`(i + 1) % self.verbs.len()` panics (remainder by zero), modelled as
`none`.  In the `Conjugation` branch the form is matched exactly as in
the source (`0 => Present, 1 => Past, _ => PastParticiple`). -/
def DanishVerbsApp.next_verb (s : DanishVerbsApp) (coin : Bool) (form : Nat) :
    Option DanishVerbsApp :=
  if s.verbs.length = 0 then none
  else
    let s1 := { s with
      current_verb_index := (s.current_verb_index + 1) % s.verbs.length
      user_answer := ""
      result_message := ""
      show_result := false }
    if coin then
      some { s1 with practice_mode := PracticeMode.Translation }
    else
      some { s1 with
        practice_mode := PracticeMode.Conjugation
        conjugation_form :=
          match form with
          | 0 => ConjugationForm.Present
          | 1 => ConjugationForm.Past
          | _ => ConjugationForm.PastParticiple }

/-- Models `DanishVerbsApp::check_answer` (lines 111-128).  The Rust
indexing `self.verbs[self.current_verb_index]` panics out of bounds,
modelled as `none`.  Compares the trimmed, lowercased submitted answer
with the trimmed, lowercased expected answer and stores the result
message; only `result_message` and `show_result` change. -/
def DanishVerbsApp.check_answer (s : DanishVerbsApp) : Option DanishVerbsApp :=
  match s.verbs[s.current_verb_index]? with
  | none => none
  | some current_verb =>
    let correct_answer := expected_answer current_verb s.practice_mode s.conjugation_form
    some { s with
      result_message :=
        if rustToLowercase (rustTrim s.user_answer) =
            rustToLowercase (rustTrim correct_answer) then
          correct_message
        else
          incorrect_message correct_answer
      show_result := true }

/-- Models `load_verbs` (lines 330-346).  The file read
(`fs::read_to_string`) and the serde parse are parameters; the returned
pair is the verb list together with the diagnostic printed to stderr
(`none` when nothing is printed). -/
def load_verbs (readResult : Except String String)
    (parseVerbs : String → Except String (List Verb)) :
    List Verb × Option String :=
  match readResult with
  | Except.ok data =>
    match parseVerbs data with
    | Except.ok verbs => (verbs, none)
    | Except.error e => ([], some ("Error parsing verb data: " ++ e))
  | Except.error e => ([], some ("Error reading verb file: " ++ e))

/-- Iterated `next_verb`: `advanceN s coins forms n` performs `n` advances,
the `j`-th using draws `coins j` and `forms j`. -/
def advanceN (s : DanishVerbsApp) (coins : Nat → Bool) (forms : Nat → Nat) :
    Nat → Option DanishVerbsApp
  | 0 => some s
  | n + 1 => (advanceN s coins forms n).bind (fun t => t.next_verb (coins n) (forms n))

/-- The verb that is current after `n` advances (none if an advance failed
or the index is out of bounds). -/
def visitedVerb (s : DanishVerbsApp) (coins : Nat → Bool) (forms : Nat → Nat)
    (n : Nat) : Option Verb :=
  (advanceN s coins forms n).bind (fun t => t.verbs[t.current_verb_index]?)

/-- The example verb record used in the spec's test scenario. -/
def spiseVerb : Verb :=
  { infinitive := "spise", present := "spiser", past := "spiste",
    past_participle := "spist", english := "to eat" }

/-- A concrete one-verb quiz state used to witness the theorems below. -/
def sampleState : DanishVerbsApp :=
  { verbs := [spiseVerb]
    current_verb_index := 0
    practice_mode := PracticeMode.Translation
    conjugation_form := ConjugationForm.Present
    user_answer := "to eat"
    result_message := ""
    show_result := false }

/-- A state that grades to `Correct`: `sampleState` already holds the
matching answer `"to eat"`. -/
def sampleGraded : DanishVerbsApp :=
  { sampleState with result_message := correct_message, show_result := true }

/-- `sampleState` with a wrong answer typed in. -/
def sampleWrongState : DanishVerbsApp :=
  { sampleState with user_answer := "to drink" }

theorem next_verb_spec (s : DanishVerbsApp) (coin : Bool) (form : Nat)
    (h : 0 < s.verbs.length) :
    ∃ t, s.next_verb coin form = some t ∧ t.verbs = s.verbs ∧
      t.current_verb_index = (s.current_verb_index + 1) % s.verbs.length ∧
      t.user_answer = "" ∧ t.result_message = "" ∧ t.show_result = false := by
  have hne : ¬ s.verbs.length = 0 := Nat.pos_iff_ne_zero.mp h
  cases coin <;> simp [DanishVerbsApp.next_verb, hne]

theorem check_answer_spec (s : DanishVerbsApp)
    (h : s.current_verb_index < s.verbs.length) :
    s.check_answer = some { s with
      result_message :=
        if rustNormalize s.user_answer =
            rustNormalize (expected_answer s.verbs[s.current_verb_index]
              s.practice_mode s.conjugation_form) then
          correct_message
        else
          incorrect_message (expected_answer s.verbs[s.current_verb_index]
            s.practice_mode s.conjugation_form)
      show_result := true } := by
  unfold DanishVerbsApp.check_answer
  rw [List.getElem?_eq_getElem h]
  rfl

theorem check_answer_some_idx (s : DanishVerbsApp) (t : DanishVerbsApp)
    (h : s.check_answer = some t) :
    s.current_verb_index < s.verbs.length := by
  by_contra hlt
  unfold DanishVerbsApp.check_answer at h
  rw [List.getElem?_eq_none (Nat.le_of_not_lt hlt)] at h
  exact Option.noConfusion h

theorem incorrect_message_ne_correct (e : String) :
    incorrect_message e ≠ correct_message := by
  intro hcontra
  have hlen : (incorrect_message e).length = correct_message.length :=
    congrArg String.length hcontra
  rw [incorrect_message, String.length_append] at hlen
  have h1 : ("Incorrect. The correct answer is: " : String).length = 34 := by decide
  have h2 : correct_message.length = 13 := by decide
  rw [h1, h2] at hlen
  omega

/-- C3: `Advance` fails (the Rust `% 0` panic, modelled as `none`) exactly
when the verb list is empty; under the precondition `verbs.length > 0` it
always succeeds. -/
theorem advance_fails_iff_empty (s : DanishVerbsApp) (coin : Bool) (form : Nat) :
    (s.next_verb coin form = none ↔ s.verbs.length = 0) ∧
    (0 < s.verbs.length → (s.next_verb coin form).isSome = true) := by
  by_cases h0 : s.verbs.length = 0
  · simp [DanishVerbsApp.next_verb, h0]
  · cases coin <;> simp [DanishVerbsApp.next_verb, h0]

/-- Witness for C3 at concrete states: a one-verb state advances
successfully, an empty state fails. -/
theorem advance_fails_iff_empty_witness :
    (sampleState.next_verb true 0).isSome = true ∧
    ({ sampleState with verbs := [] } : DanishVerbsApp).next_verb true 0 = none :=
  ⟨(advance_fails_iff_empty sampleState true 0).2 (by decide),
    (advance_fails_iff_empty { sampleState with verbs := [] } true 0).1.mpr (by decide)⟩

/-- C6: after a successful `Advance` (from any state, graded or not), the
answer buffer is empty and the last result is cleared (`result_message`
empty, `show_result` false): the state is `AwaitingAnswer`. -/
theorem advance_clears_answer_state (s : DanishVerbsApp) (coin : Bool) (form : Nat)
    (h : 0 < s.verbs.length) :
    ∃ t, s.next_verb coin form = some t ∧
      t.user_answer = "" ∧ t.result_message = "" ∧ t.show_result = false := by
  obtain ⟨t, ht, -, -, h1, h2, h3⟩ := next_verb_spec s coin form h
  exact ⟨t, ht, h1, h2, h3⟩

/-- Witness for C6: advancing from the graded one-verb state clears the
answer and the result. -/
theorem advance_clears_answer_state_witness :
    ∃ t, sampleGraded.next_verb false 2 = some t ∧
      t.user_answer = "" ∧ t.result_message = "" ∧ t.show_result = false :=
  advance_clears_answer_state sampleGraded false 2 (by decide)

/-- C7: both operations keep the stored verb list unchanged, and a
successful operation leaves `current_verb_index` inside
`[0, verbs.length)`; `check_answer` does not move the index at all. -/
theorem operations_preserve_invariants (s : DanishVerbsApp) (coin : Bool) (form : Nat) :
    (∀ t, s.next_verb coin form = some t →
      t.verbs = s.verbs ∧ t.current_verb_index < t.verbs.length) ∧
    (∀ t, s.check_answer = some t →
      t.verbs = s.verbs ∧ t.current_verb_index = s.current_verb_index ∧
      t.current_verb_index < t.verbs.length) := by
  constructor
  · intro t ht
    have h0 : ¬ s.verbs.length = 0 := by
      intro h0
      have hnone : s.next_verb coin form = none := by
        simp [DanishVerbsApp.next_verb, h0]
      rw [ht] at hnone
      exact Option.noConfusion hnone
    obtain ⟨t', ht', hv, hi, -, -, -⟩ :=
      next_verb_spec s coin form (Nat.pos_of_ne_zero h0)
    rw [ht] at ht'
    obtain rfl := Option.some.inj ht'
    refine ⟨hv, ?_⟩
    rw [hv, hi]
    exact Nat.mod_lt _ (Nat.pos_of_ne_zero h0)
  · intro t ht
    have hidx := check_answer_some_idx s t ht
    have hspec := check_answer_spec s hidx
    rw [ht] at hspec
    obtain rfl := Option.some.inj hspec
    exact ⟨rfl, rfl, hidx⟩

/-- Witness for C7 at the concrete one-verb states. -/
theorem operations_preserve_invariants_witness :
    (sampleState.verbs = sampleState.verbs ∧
      sampleState.current_verb_index < sampleState.verbs.length) ∧
    (sampleGraded.verbs = sampleState.verbs ∧
      sampleGraded.current_verb_index = sampleState.current_verb_index ∧
      sampleGraded.current_verb_index < sampleGraded.verbs.length) := by
  refine ⟨?_, ?_⟩
  · exact (operations_preserve_invariants sampleState true 0).1
      { sampleState with user_answer := "" } (by decide)
  · exact (operations_preserve_invariants sampleState true 0).2 sampleGraded (by decide)

/-- C10: when `Advance` draws `Translation` (coin `true`), it leaves
`conjugation_form` untouched (the form is only re-chosen in the
`Conjugation` branch); and `new` initializes `conjugation_form` to
`Present` even though the initial mode is `Translation`, so the form
always holds a stale but well-defined value outside `Conjugation` mode. -/
theorem translation_leaves_form_untouched :
    (∀ (s : DanishVerbsApp) (form : Nat) (t : DanishVerbsApp),
      s.next_verb true form = some t →
        t.conjugation_form = s.conjugation_form ∧
        t.practice_mode = PracticeMode.Translation) ∧
    (∀ (loaded : List Verb) (picks : Nat → Nat),
      (DanishVerbsApp.new loaded picks).conjugation_form = ConjugationForm.Present ∧
      (DanishVerbsApp.new loaded picks).practice_mode = PracticeMode.Translation) := by
  constructor
  · intro s form t ht
    by_cases h0 : s.verbs.length = 0
    · have hnone : s.next_verb true form = none := by
        simp [DanishVerbsApp.next_verb, h0]
      rw [ht] at hnone
      exact Option.noConfusion hnone
    · have hsome : s.next_verb true form = some { s with
          current_verb_index := (s.current_verb_index + 1) % s.verbs.length
          user_answer := ""
          result_message := ""
          show_result := false
          practice_mode := PracticeMode.Translation } := by
        simp [DanishVerbsApp.next_verb, h0]
      rw [ht] at hsome
      obtain rfl := Option.some.inj hsome
      exact ⟨rfl, rfl⟩
  · intro loaded picks
    exact ⟨rfl, rfl⟩

/-- The result of advancing `sampleGraded` with a `Translation` draw. -/
def sampleAdvanced : DanishVerbsApp :=
  { sampleGraded with user_answer := "", result_message := "", show_result := false }

/-- Witness for C10: advancing the graded one-verb state with a
`Translation` draw keeps the stale `Present` form. -/
theorem translation_leaves_form_untouched_witness :
    sampleAdvanced.conjugation_form = sampleGraded.conjugation_form ∧
    sampleAdvanced.practice_mode = PracticeMode.Translation :=
  (translation_leaves_form_untouched).1 sampleGraded 0 sampleAdvanced (by decide)

/-- C5: grading only writes the result (`result_message`/`show_result`):
`verbs`, `current_verb_index`, `practice_mode`, `conjugation_form` and
`user_answer` are unchanged, so grading never advances the question; and
re-grading the same question with a different submitted answer yields
exactly what grading that answer on the pre-grade state yields (the
latest call alone determines the result). -/
theorem grade_frame_and_regrade (s t : DanishVerbsApp) (newAnswer : String)
    (h : s.check_answer = some t) :
    t.verbs = s.verbs ∧ t.current_verb_index = s.current_verb_index ∧
    t.practice_mode = s.practice_mode ∧ t.conjugation_form = s.conjugation_form ∧
    t.user_answer = s.user_answer ∧
    DanishVerbsApp.check_answer { t with user_answer := newAnswer } =
      DanishVerbsApp.check_answer { s with user_answer := newAnswer } := by
  have hidx := check_answer_some_idx s t h
  have hspec := check_answer_spec s hidx
  rw [h] at hspec
  obtain rfl := Option.some.inj hspec
  refine ⟨rfl, rfl, rfl, rfl, rfl, ?_⟩
  rw [check_answer_spec { s with user_answer := newAnswer } hidx]
  rw [check_answer_spec { s with
    result_message :=
      if rustNormalize s.user_answer =
          rustNormalize (expected_answer s.verbs[s.current_verb_index]
            s.practice_mode s.conjugation_form) then
        correct_message
      else
        incorrect_message (expected_answer s.verbs[s.current_verb_index]
          s.practice_mode s.conjugation_form)
    show_result := true
    user_answer := newAnswer } hidx]

/-- Witness for C5: grading the one-verb state, then re-grading with
`"to drink"`, matches grading `"to drink"` on the original state. -/
theorem grade_frame_and_regrade_witness :
    sampleGraded.verbs = sampleState.verbs ∧
    sampleGraded.current_verb_index = sampleState.current_verb_index ∧
    sampleGraded.practice_mode = sampleState.practice_mode ∧
    sampleGraded.conjugation_form = sampleState.conjugation_form ∧
    sampleGraded.user_answer = sampleState.user_answer ∧
    DanishVerbsApp.check_answer { sampleGraded with user_answer := "to drink" } =
      DanishVerbsApp.check_answer { sampleState with user_answer := "to drink" } :=
  grade_frame_and_regrade sampleState sampleGraded "to drink" (by decide)

/-- C1: on a state satisfying the index invariant (which forces a
non-empty verb list), grading succeeds and yields the `Correct` message
exactly when the submitted answer equals the expected answer after
trimming and lowercasing both, where the expected answer is the verb's
`english` field in `Translation` mode and the field named by the
conjugation form in `Conjugation` mode; otherwise the result is the
`Incorrect` message. -/
theorem grade_correct_iff_normalized_eq (s : DanishVerbsApp)
    (h : s.current_verb_index < s.verbs.length) :
    ∃ t, s.check_answer = some t ∧
      (t.result_message = correct_message ↔
        rustNormalize s.user_answer =
          rustNormalize (expected_answer s.verbs[s.current_verb_index]
            s.practice_mode s.conjugation_form)) ∧
      (t.result_message = correct_message ∨
        t.result_message = incorrect_message (expected_answer
          s.verbs[s.current_verb_index] s.practice_mode s.conjugation_form)) := by
  refine ⟨_, check_answer_spec s h, ?_, ?_⟩
  · by_cases hc : rustNormalize s.user_answer =
        rustNormalize (expected_answer s.verbs[s.current_verb_index]
          s.practice_mode s.conjugation_form)
    · simp [hc]
    · simp only [if_neg hc]
      constructor
      · intro habs
        exact absurd habs (incorrect_message_ne_correct _)
      · intro habs
        exact absurd habs hc
  · by_cases hc : rustNormalize s.user_answer =
        rustNormalize (expected_answer s.verbs[s.current_verb_index]
          s.practice_mode s.conjugation_form)
    · left
      simp [hc]
    · right
      simp [hc]

/-- Witness for C1: grading `"to eat"` against expected `"to eat"`. -/
theorem grade_correct_iff_normalized_eq_witness :
    ∃ t, sampleState.check_answer = some t ∧
      (t.result_message = correct_message ↔
        rustNormalize "to eat" = rustNormalize "to eat") ∧
      (t.result_message = correct_message ∨
        t.result_message = incorrect_message "to eat") :=
  grade_correct_iff_normalized_eq sampleState (by decide)

/-- C4: when the normalized submitted answer differs from the normalized
expected answer, grading stores the `Incorrect` message carrying the
untrimmed, un-lowercased original expected answer. -/
theorem grade_incorrect_carries_expected (s : DanishVerbsApp)
    (h : s.current_verb_index < s.verbs.length)
    (hne : rustNormalize s.user_answer ≠
      rustNormalize (expected_answer s.verbs[s.current_verb_index]
        s.practice_mode s.conjugation_form)) :
    ∃ t, s.check_answer = some t ∧
      t.result_message = incorrect_message (expected_answer
        s.verbs[s.current_verb_index] s.practice_mode s.conjugation_form) := by
  refine ⟨_, check_answer_spec s h, ?_⟩
  simp [hne]

/-- Witness for C4: grading `"to drink"` against expected `"to eat"`
yields the `Incorrect` message carrying `"to eat"`. -/
theorem grade_incorrect_carries_expected_witness :
    ∃ t, sampleWrongState.check_answer = some t ∧
      t.result_message = incorrect_message "to eat" :=
  grade_incorrect_carries_expected sampleWrongState (by decide) (by decide)

/-- C8: the loader returns an empty list plus a diagnostic when the read
fails or the parse fails, and returns the parsed records (in file order)
with no diagnostic when both succeed; in every case it returns normally
rather than aborting. -/
theorem load_verbs_error_handling
    (parseVerbs : String → Except String (List Verb)) (e data : String)
    (vs : List Verb) :
    load_verbs (Except.error e) parseVerbs =
      ([], some ("Error reading verb file: " ++ e)) ∧
    (parseVerbs data = Except.error e →
      load_verbs (Except.ok data) parseVerbs =
        ([], some ("Error parsing verb data: " ++ e))) ∧
    (parseVerbs data = Except.ok vs →
      load_verbs (Except.ok data) parseVerbs = (vs, none)) := by
  refine ⟨rfl, ?_, ?_⟩ <;> intro hp <;> simp [load_verbs, hp]

/-- Witness for C8: a failed read, a successful parse and a failed parse
at concrete inputs. -/
theorem load_verbs_error_handling_witness :
    load_verbs (Except.error "missing") (fun _ => Except.ok [spiseVerb]) =
      ([], some ("Error reading verb file: " ++ "missing")) ∧
    load_verbs (Except.ok "data") (fun _ => Except.ok [spiseVerb]) =
      ([spiseVerb], none) ∧
    load_verbs (Except.ok "data") (fun _ => Except.error "bad") =
      ([], some ("Error parsing verb data: " ++ "bad")) :=
  ⟨(load_verbs_error_handling (fun _ => Except.ok [spiseVerb]) "missing" "x" []).1,
    (load_verbs_error_handling (fun _ => Except.ok [spiseVerb]) "m" "data"
      [spiseVerb]).2.2 rfl,
    (load_verbs_error_handling (fun _ => Except.error "bad") "bad" "data" []).2.1 rfl⟩

theorem get_cons_set_perm {α : Type} :
    ∀ (xs : List α) (m : Nat) (h : m < xs.length) (x : α),
      List.Perm (xs.get ⟨m, h⟩ :: xs.set m x) (x :: xs) := by
  intro xs
  induction xs with
  | nil =>
    intro m h x
    exact absurd h (by simp)
  | cons y ys ih =>
    intro m h x
    cases m with
    | zero =>
      exact List.Perm.swap x y ys
    | succ n =>
      have hn : n < ys.length := by simpa using h
      show List.Perm (ys.get ⟨n, hn⟩ :: y :: ys.set n x) (x :: y :: ys)
      exact (List.Perm.swap y _ _).trans (((ih n hn x).cons y).trans (List.Perm.swap x y ys))

theorem set_set_perm {α : Type} :
    ∀ (l : List α) (i j : Nat) (hi : i < l.length) (hj : j < l.length),
      List.Perm ((l.set i (l.get ⟨j, hj⟩)).set j (l.get ⟨i, hi⟩)) l := by
  intro l
  induction l with
  | nil =>
    intro i j hi hj
    exact absurd hi (by simp)
  | cons y ys ih =>
    intro i j hi hj
    cases i with
    | zero =>
      cases j with
      | zero =>
        exact List.Perm.refl _
      | succ m =>
        have hm : m < ys.length := by simpa using hj
        show List.Perm (ys.get ⟨m, hm⟩ :: ys.set m y) (y :: ys)
        exact get_cons_set_perm ys m hm y
    | succ n =>
      have hn : n < ys.length := by simpa using hi
      cases j with
      | zero =>
        show List.Perm (ys.get ⟨n, hn⟩ :: ys.set n y) (y :: ys)
        exact get_cons_set_perm ys n hn y
      | succ m =>
        have hm : m < ys.length := by simpa using hj
        show List.Perm (y :: (ys.set n (ys.get ⟨m, hm⟩)).set m (ys.get ⟨n, hn⟩)) (y :: ys)
        exact (ih n m hn hm).cons y

theorem listSwap_perm {α : Type} (l : List α) (i j : Nat) :
    List.Perm (listSwap l i j) l := by
  cases hi : l[i]? with
  | none =>
    cases hj : l[j]? <;> simp [listSwap, hi]
  | some a =>
    cases hj : l[j]? with
    | none =>
      simp [listSwap, hi, hj]
    | some b =>
      obtain ⟨hilt, ha⟩ := List.getElem?_eq_some.mp hi
      obtain ⟨hjlt, hb⟩ := List.getElem?_eq_some.mp hj
      unfold listSwap
      rw [hi, hj]
      subst ha hb
      exact set_set_perm l i j hilt hjlt

theorem fisherYatesAux_perm {α : Type} (picks : Nat → Nat) :
    ∀ (n : Nat) (l : List α), List.Perm (fisherYatesAux picks l n) l := by
  intro n
  induction n with
  | zero =>
    intro l
    exact List.Perm.refl l
  | succ i ih =>
    intro l
    exact (ih _).trans (listSwap_perm l (i + 1) (picks (i + 1) % (i + 2)))

theorem fisherYates_perm {α : Type} (l : List α) (picks : Nat → Nat) :
    List.Perm (fisherYates l picks) l :=
  fisherYatesAux_perm picks (l.length - 1) l

/-- C9: after initialization the stored verb list is a permutation of the
loaded input (for any input, empty included, and any shuffle draws), the
index is 0, the mode is `Translation`, the answer buffer is empty, and
there is no last result. -/
theorem initialize_state (loaded : List Verb) (picks : Nat → Nat) :
    List.Perm (DanishVerbsApp.new loaded picks).verbs loaded ∧
    (DanishVerbsApp.new loaded picks).current_verb_index = 0 ∧
    (DanishVerbsApp.new loaded picks).practice_mode = PracticeMode.Translation ∧
    (DanishVerbsApp.new loaded picks).user_answer = "" ∧
    (DanishVerbsApp.new loaded picks).result_message = "" ∧
    (DanishVerbsApp.new loaded picks).show_result = false :=
  ⟨fisherYates_perm loaded picks, rfl, rfl, rfl, rfl, rfl⟩

theorem advanceN_spec (s : DanishVerbsApp) (coins : Nat → Bool) (forms : Nat → Nat)
    (h0 : 0 < s.verbs.length) (h1 : s.current_verb_index < s.verbs.length) :
    ∀ n, ∃ t, advanceN s coins forms n = some t ∧ t.verbs = s.verbs ∧
      t.current_verb_index = (s.current_verb_index + n) % s.verbs.length := by
  intro n
  induction n with
  | zero =>
    exact ⟨s, rfl, rfl, (Nat.mod_eq_of_lt h1).symm⟩
  | succ n ih =>
    obtain ⟨t, ht, hv, hi⟩ := ih
    have h0t : 0 < t.verbs.length := by
      rw [hv]
      exact h0
    obtain ⟨u, hu, huv, hui, -, -, -⟩ := next_verb_spec t (coins n) (forms n) h0t
    refine ⟨u, ?_, by rw [huv, hv], ?_⟩
    · show (advanceN s coins forms n).bind (fun t => t.next_verb (coins n) (forms n)) = some u
      rw [ht]
      exact hu
    · rw [hui, hv, hi, Nat.mod_add_mod, Nat.add_assoc]

theorem range_map_visited_eq (l : List Verb) (m : Nat) (hl : 0 < l.length)
    (f : Nat → Option Verb)
    (hf : ∀ j, j < l.length → f j = l[(m + j) % l.length]?) :
    (List.range l.length).map f = (l.map some).rotate m := by
  apply List.ext_getElem
  · simp
  · intro i hi1 hi2
    rw [List.getElem_map, List.getElem_range]
    rw [hf i (by simpa using hi1)]
    rw [List.getElem_rotate]
    simp only [List.length_map, List.getElem_map]
    rw [Nat.add_comm i m]
    rw [List.getElem?_eq_getElem (Nat.mod_lt _ hl)]

/-- C2: from any valid state with `verbs.length = k > 0`, `k` advances
(whatever the random draws) return `current_verb_index` to its original
value without touching the verb list, and the verbs current after each of
those `k` advances form a permutation of the stored list — each position
is visited exactly once per cycle. -/
theorem advance_cycle (s : DanishVerbsApp) (coins : Nat → Bool) (forms : Nat → Nat)
    (h0 : 0 < s.verbs.length) (h1 : s.current_verb_index < s.verbs.length) :
    (∃ t, advanceN s coins forms s.verbs.length = some t ∧
      t.verbs = s.verbs ∧ t.current_verb_index = s.current_verb_index) ∧
    List.Perm
      ((List.range s.verbs.length).map (fun j => visitedVerb s coins forms (j + 1)))
      (s.verbs.map some) := by
  constructor
  · obtain ⟨t, ht, hv, hi⟩ := advanceN_spec s coins forms h0 h1 s.verbs.length
    refine ⟨t, ht, hv, ?_⟩
    rw [hi, Nat.add_mod_right]
    exact Nat.mod_eq_of_lt h1
  · have hvis : ∀ j, j < s.verbs.length → visitedVerb s coins forms (j + 1) =
        s.verbs[((s.current_verb_index + 1) + j) % s.verbs.length]? := by
      intro j hj
      obtain ⟨t, ht, hv, hi⟩ := advanceN_spec s coins forms h0 h1 (j + 1)
      unfold visitedVerb
      rw [ht]
      show t.verbs[t.current_verb_index]? = _
      rw [hv, hi]
      congr 2
      omega
    rw [range_map_visited_eq s.verbs (s.current_verb_index + 1) h0 _ hvis]
    exact List.rotate_perm (s.verbs.map some) (s.current_verb_index + 1)

/-- Witness for C2 on the one-verb state with constant draws. -/
theorem advance_cycle_witness :
    (∃ t, advanceN sampleState (fun _ => true) (fun _ => 0)
        sampleState.verbs.length = some t ∧
      t.verbs = sampleState.verbs ∧
      t.current_verb_index = sampleState.current_verb_index) ∧
    List.Perm
      ((List.range sampleState.verbs.length).map
        (fun j => visitedVerb sampleState (fun _ => true) (fun _ => 0) (j + 1)))
      (sampleState.verbs.map some) :=
  advance_cycle sampleState (fun _ => true) (fun _ => 0) (by decide) (by decide)
